import Mathlib

/-!
Verification of the typed columnar marshalling core of the natch binding
layer (native sources: column.cpp, select.cpp, block.cpp, minimal.cpp,
error_encoding.h).

The C++ sources are shallowly embedded: each NIF-exposed operation becomes a
Lean function over explicit column state.  Machine integers are modelled as
Nat / Int with explicit two's-complement truncation where the source performs
a narrowing cast; fallible code (C++ exceptions, out-of-range vector reads)
returns Option / Except.  Floating-point columns (Float32/Float64) are kept
outside the column model; where a claim only needs that float values cross
the boundary unmodified (the bulk/single append equivalence), the value type
is an opaque type parameter.
-/

namespace Chex

/-! ## Truncating two's-complement conversions

These model the C++ `static_cast` narrowing conversions: the result is the
unique representative of the input's residue class modulo 2^w lying in
[-2^(w-1), 2^(w-1)) for signed targets, and the residue in [0, 2^w) for
unsigned targets (written directly as `% 2^w` on Nat at use sites). -/

def toInt8 (v : Int) : Int := (v + 2^7) % 2^8 - 2^7

def toInt16 (v : Int) : Int := (v + 2^15) % 2^16 - 2^15

def toInt32 (v : Int) : Int := (v + 2^31) % 2^32 - 2^31

def toInt64 (v : Int) : Int := (v + 2^63) % 2^64 - 2^63

/-- Widening of a value into 128-bit signed storage (the `Int128(value)`
constructor applied in `column_decimal_append_bulk`); value-preserving on the
int64 inputs the NIF receives. -/
def toInt128 (v : Int) : Int := (v + 2^127) % 2^128 - 2^127

/-! ## Error taxonomy

column.cpp raises `std::runtime_error` with distinguishing messages; the
spec names these conditions.  The constructors below stand for the messages
raised at the corresponding throw sites:
`MonotonicityError` for "Offsets must be monotonically increasing",
`RangeError` for "Offset ... exceeds nested column size ...",
`NullPointerError` for the null-handle checks, and
`LengthMismatchError` for "UUID highs and lows lists must be same length". -/

inductive ChError where
  | MonotonicityError
  | RangeError
  | NullPointerError
  | LengthMismatchError
  deriving DecidableEq

/-! ## Column model

One constructor per clickhouse-cpp column class reachable from the sources'
dispatch chains.  Leaf columns hold the physically stored values (already
narrowed to the native width).  An Array column is modelled by the per-row
slice columns (`ColumnArray::GetAsColumn`); a Nullable column holds its
nested column and the parallel null-map of stored uint8 flags; Tuple, Map
and LowCardinality are the kinds with no branch in the decode dispatch of
select.cpp. -/

inductive Column where
  | uint64 (data : List Nat)
  | uint32 (data : List Nat)
  | uint16 (data : List Nat)
  | uint8 (data : List Nat)
  | int64 (data : List Int)
  | int32 (data : List Int)
  | int16 (data : List Int)
  | int8 (data : List Int)
  | str (data : List String)
  | datetime (data : List Nat)
  | datetime64 (data : List Int)
  | date (data : List Nat)
  | uuid (data : List (Nat × Nat))
  | decimal (data : List Int)
  | array (rows : List Column)
  | nullable (nested : Column) (nulls : List Nat)
  | tuple (children : List Column)
  | map (kv : Column)
  | lowCardinality (dict : Column) (indices : List Nat)

/-- `Column::Size()`: row count.  A Nullable column's size is its nested
column's size; a Tuple column's size is its first child's size (zero when it
has no children); a Map column's size is that of its underlying
Array(Tuple(K,V)) column; a LowCardinality column's size is the length of its
index sequence. -/
def Column.size : Column → Nat
  | uint64 d => d.length
  | uint32 d => d.length
  | uint16 d => d.length
  | uint8 d => d.length
  | int64 d => d.length
  | int32 d => d.length
  | int16 d => d.length
  | int8 d => d.length
  | str d => d.length
  | datetime d => d.length
  | datetime64 d => d.length
  | date d => d.length
  | uuid d => d.length
  | decimal d => d.length
  | array rows => rows.length
  | nullable nested _ => nested.size
  | tuple [] => 0
  | tuple (c :: _) => c.size
  | map kv => kv.size
  | lowCardinality _ indices => indices.length

mutual

/-- `Column::Slice(start, count)`: rows [start, start+count) as a new column
of the same kind.  For leaf columns this copies the stored value range; an
Array column's row slices, a Nullable column's nested column and null map,
and a Tuple column's children are sliced in lock-step.  (LowCardinality
slicing is modelled on the index sequence, which carries the logical rows;
no claim exercises it.) -/
def Column.slice : Column → Nat → Nat → Column
  | uint64 d, s, n => uint64 ((d.drop s).take n)
  | uint32 d, s, n => uint32 ((d.drop s).take n)
  | uint16 d, s, n => uint16 ((d.drop s).take n)
  | uint8 d, s, n => uint8 ((d.drop s).take n)
  | int64 d, s, n => int64 ((d.drop s).take n)
  | int32 d, s, n => int32 ((d.drop s).take n)
  | int16 d, s, n => int16 ((d.drop s).take n)
  | int8 d, s, n => int8 ((d.drop s).take n)
  | str d, s, n => str ((d.drop s).take n)
  | datetime d, s, n => datetime ((d.drop s).take n)
  | datetime64 d, s, n => datetime64 ((d.drop s).take n)
  | date d, s, n => date ((d.drop s).take n)
  | uuid d, s, n => uuid ((d.drop s).take n)
  | decimal d, s, n => decimal ((d.drop s).take n)
  | array rows, s, n => array ((rows.drop s).take n)
  | nullable nested nulls, s, n => nullable (nested.slice s n) ((nulls.drop s).take n)
  | tuple children, s, n => tuple (Column.sliceAll children s n)
  | map kv, s, n => map (kv.slice s n)
  | lowCardinality dict indices, s, n => lowCardinality dict ((indices.drop s).take n)

def Column.sliceAll : List Column → Nat → Nat → List Column
  | [], _, _ => []
  | c :: cs, s, n => c.slice s n :: Column.sliceAll cs s n

end

/-! ## Leaf append operations (column.cpp)

Each function mirrors the body of the NIF of the same name: the single-value
appends push one value, the bulk appends run the C++ `for` loop, appending
each element with the same per-element conversion as the loop body.  The
input lists carry the wide host-boundary representation (uint64 as Nat,
int64 as Int). -/

def column_uint64_append (data : List Nat) (value : Nat) : List Nat :=
  data ++ [value]

def column_uint64_append_bulk (data : List Nat) (values : List Nat) : List Nat :=
  values.foldl (fun acc value => acc ++ [value]) data

def column_int64_append (data : List Int) (value : Int) : List Int :=
  data ++ [value]

def column_int64_append_bulk (data : List Int) (values : List Int) : List Int :=
  values.foldl (fun acc value => acc ++ [value]) data

def column_string_append (data : List String) (value : String) : List String :=
  data ++ [value]

def column_string_append_bulk (data : List String) (values : List String) : List String :=
  values.foldl (fun acc value => acc ++ [value]) data

/-- Float64 append: the double value crosses the boundary unmodified, so the
value type is an opaque parameter (no floating-point arithmetic occurs in the
source path). -/
def column_float64_append {α : Type} (data : List α) (value : α) : List α :=
  data ++ [value]

def column_float64_append_bulk {α : Type} (data : List α) (values : List α) : List α :=
  values.foldl (fun acc value => acc ++ [value]) data

/-- DateTime append: the source casts the uint64 timestamp to `time_t` and the
library's `ColumnDateTime::Append` stores it as a 32-bit seconds count; the
composite of the two conversions on a uint64 input is reduction mod 2^32. -/
def column_datetime_append (data : List Nat) (timestamp : Nat) : List Nat :=
  data ++ [timestamp % 2^32]

def column_datetime_append_bulk (data : List Nat) (timestamps : List Nat) : List Nat :=
  timestamps.foldl (fun acc timestamp => acc ++ [timestamp % 2^32]) data

/-- DateTime64 append: the int64 tick count is stored verbatim. -/
def column_datetime64_append_bulk (data : List Int) (ticks : List Int) : List Int :=
  ticks.foldl (fun acc tick => acc ++ [tick]) data

/-- Decimal append: each int64 scaled mantissa is widened to Int128 storage
via `Int128(value)`. -/
def column_decimal_append_bulk (data : List Int) (scaled_values : List Int) : List Int :=
  scaled_values.foldl (fun acc value => acc ++ [toInt128 value]) data

/-- Date append: `AppendRaw(static_cast<uint16_t>(day))`. -/
def column_date_append_bulk (data : List Nat) (days : List Nat) : List Nat :=
  days.foldl (fun acc day => acc ++ [day % 2^16]) data

def column_uint8_append_bulk (data : List Nat) (values : List Nat) : List Nat :=
  values.foldl (fun acc value => acc ++ [value % 2^8]) data

def column_uint16_append_bulk (data : List Nat) (values : List Nat) : List Nat :=
  values.foldl (fun acc value => acc ++ [value % 2^16]) data

def column_uint32_append_bulk (data : List Nat) (values : List Nat) : List Nat :=
  values.foldl (fun acc value => acc ++ [value % 2^32]) data

def column_int8_append_bulk (data : List Int) (values : List Int) : List Int :=
  values.foldl (fun acc value => acc ++ [toInt8 value]) data

def column_int16_append_bulk (data : List Int) (values : List Int) : List Int :=
  values.foldl (fun acc value => acc ++ [toInt16 value]) data

def column_int32_append_bulk (data : List Int) (values : List Int) : List Int :=
  values.foldl (fun acc value => acc ++ [toInt32 value]) data

/-- UUID bulk append: checks the two input lists are equal length (the one
bulk operation in column.cpp with an explicit length check), then appends the
(high, low) pairs. -/
def column_uuid_append_bulk (data : List (Nat × Nat)) (highs lows : List Nat) :
    Except ChError (List (Nat × Nat)) :=
  if highs.length ≠ lows.length then Except.error ChError.LengthMismatchError
  else Except.ok (data ++ highs.zip lows)

/-! ## Nullable bulk append (column.cpp)

`column_nullable_uint64_append_bulk` and `column_nullable_string_append_bulk`
share one loop shape: iterate `i` over the values vector, append `values[i]`
to the nested column and `static_cast<uint8_t>(nulls[i])` to the null map.
There is no length check; `nulls[i]` is a raw `std::vector::operator[]`
access, so an index past the end of `nulls` is an out-of-range read (modelled
as `none`). -/

def nullableBulkLoop {β : Type} (nulls : List Nat) :
    Nat → List β → List Nat → List β → Option (List β × List Nat)
  | _, nested, nullMap, [] => some (nested, nullMap)
  | i, nested, nullMap, v :: vs =>
    match nulls.get? i with
    | none => none
    | some flag => nullableBulkLoop nulls (i + 1) (nested ++ [v]) (nullMap ++ [flag % 2^8]) vs

def column_nullable_uint64_append_bulk (nested : List Nat) (nullMap : List Nat)
    (values : List Nat) (nulls : List Nat) : Option (List Nat × List Nat) :=
  nullableBulkLoop nulls 0 nested nullMap values

def column_nullable_string_append_bulk (nested : List String) (nullMap : List Nat)
    (values : List String) (nulls : List Nat) : Option (List String × List Nat) :=
  nullableBulkLoop nulls 0 nested nullMap values

/-! ## Array append-from-column (column.cpp)

The loop walks the offsets, validating each against the previous offset and
the nested column's size, and appends `nested->Slice(prev, offset - prev)` as
one array row (`AppendAsColumn`).  Validation happens inside the append loop,
so an exception leaves the rows appended for the offsets already processed in
place; the function therefore returns the final array-row state together with
the error, if any. -/

def arrayAppendLoop (nested : Column) :
    List Column → Nat → List Nat → List Column × Option ChError
  | rows, _, [] => (rows, none)
  | rows, prev, offset :: rest =>
    if offset < prev then (rows, some ChError.MonotonicityError)
    else if offset > nested.size then (rows, some ChError.RangeError)
    else arrayAppendLoop nested (rows ++ [nested.slice prev (offset - prev)]) offset rest

def column_array_append_from_column (arrayRows : List Column) (nested : Column)
    (offsets : List Nat) : List Column × Option ChError :=
  arrayAppendLoop nested arrayRows 0 offsets

/-! ## Decode to host values (select.cpp)

`ETerm` models the Erlang terms produced: unsigned and signed integers,
binaries, the `nil` atom and lists.  `collectOption` is the embedding of a
C++ loop pushing into a vector where an iteration may throw (an
At/operator[] out-of-range access): the whole computation fails. -/

inductive ETerm where
  | uint (n : Nat)
  | int (z : Int)
  | bin (s : String)
  | atomNil
  | list (xs : List ETerm)

def collectOption {α β : Type} (f : α → Option β) : List α → Option (List β)
  | [] => some []
  | a :: rest =>
    match f a, collectOption f rest with
    | some b, some bs => some (b :: bs)
    | _, _ => none

/-- Hex rendering of one formatter field: `std::hex` lowercase digits. -/
def natToHex (n : Nat) : String := String.mk (Nat.toDigits 16 n)

/-- `std::setw(w)` with `std::setfill('0')`: pad on the left with zeros up to
the minimum width `w`. -/
def padLeftZeros (w : Nat) (s : String) : String :=
  if s.length < w then String.mk (List.replicate (w - s.length) '0') ++ s else s

/-- The UUID formatter of select.cpp: five hex fields of widths 8-4-4-4-12
obtained by shifting and masking the high and low halves, joined by
hyphens. -/
def uuidToString (high low : Nat) : String :=
  padLeftZeros 8 (natToHex ((high >>> 32) &&& 0xFFFFFFFF)) ++ "-" ++
  padLeftZeros 4 (natToHex ((high >>> 16) &&& 0xFFFF)) ++ "-" ++
  padLeftZeros 4 (natToHex (high &&& 0xFFFF)) ++ "-" ++
  padLeftZeros 4 (natToHex ((low >>> 48) &&& 0xFFFF)) ++ "-" ++
  padLeftZeros 12 (natToHex (low &&& 0xFFFFFFFFFFFF))

/-- The per-row body of the Nullable decode branch: `IsNull(i)` (the stored
null-map flag at `i` is nonzero) selects `nil`; otherwise the nested column
is probed for the fixed subset UInt64 / Int64 / String (the Float64 branch is
outside this model), and any other nested kind pushes nothing for the row.
The flag read is `ColumnUInt8::At(i)`, which throws when `i` is out of range
of the null map. -/
def decodeNullableLoop (nested : Column) (flags : List Nat) :
    List Nat → Option (List ETerm)
  | [] => some []
  | i :: rest =>
    match flags.get? i with
    | none => none
    | some flag =>
      match decodeNullableLoop nested flags rest with
      | none => none
      | some tailTerms =>
        if flag ≠ 0 then some (ETerm.atomNil :: tailTerms)
        else
          match nested with
          | Column.uint64 d =>
            match d.get? i with
            | none => none
            | some v => some (ETerm.uint v :: tailTerms)
          | Column.int64 d =>
            match d.get? i with
            | none => none
            | some v => some (ETerm.int v :: tailTerms)
          | Column.str d =>
            match d.get? i with
            | none => none
            | some v => some (ETerm.bin v :: tailTerms)
          | _ => some tailTerms

mutual

/-- `column_to_elixir_list` of select.cpp: the `As<...>` dispatch chain over
the column's kind.  Leaf columns decode element-wise (Decimal truncating its
Int128 mantissa to int64, UUID formatting to its hyphenated hex string);
Array recurses row-by-row on `GetAsColumn(i)`; Nullable runs the per-row
flag/nested probe; Tuple, Map and LowCardinality match no branch of the
chain, so the values vector stays empty and the empty list is returned. -/
def column_to_elixir_list : Column → Option (List ETerm)
  | Column.uint64 d => some (d.map ETerm.uint)
  | Column.uint32 d => some (d.map ETerm.uint)
  | Column.uint16 d => some (d.map ETerm.uint)
  | Column.uint8 d => some (d.map ETerm.uint)
  | Column.int64 d => some (d.map ETerm.int)
  | Column.int32 d => some (d.map ETerm.int)
  | Column.int16 d => some (d.map ETerm.int)
  | Column.int8 d => some (d.map ETerm.int)
  | Column.str d => some (d.map ETerm.bin)
  | Column.datetime d => some (d.map ETerm.uint)
  | Column.datetime64 d => some (d.map ETerm.int)
  | Column.date d => some (d.map ETerm.uint)
  | Column.uuid d => some (d.map (fun p => ETerm.bin (uuidToString p.1 p.2)))
  | Column.decimal d => some (d.map (fun v => ETerm.int (toInt64 v)))
  | Column.array rows => decodeArrayRows rows
  | Column.nullable nested flags =>
    decodeNullableLoop nested flags (List.range nested.size)
  | Column.tuple _ => some []
  | Column.map _ => some []
  | Column.lowCardinality _ _ => some []

def decodeArrayRows : List Column → Option (List ETerm)
  | [] => some []
  | r :: rs =>
    match column_to_elixir_list r, decodeArrayRows rs with
    | some v, some vs => some (ETerm.list v :: vs)
    | _, _ => none

end

/-! ## Block-to-rows projection (select.cpp / block.cpp)

A Block is the ordered list of (name, column) pairs; `Block::AppendColumn`
enforces equal sizes, and `GetRowCount()` is the first column's size. -/

structure Block where
  cols : List (String × Column)

def Block.rowCount (b : Block) : Nat :=
  match b.cols with
  | [] => 0
  | (_, c) :: _ => c.size

/-- The per-column extraction loop of `block_to_maps_impl`: the same dispatch
chain as `column_to_elixir_list`, but iterating `i` over `[0, row_count)`
rather than the column's own size; a column matching no branch contributes an
empty values vector. -/
def blockColumnValues (c : Column) (rowCount : Nat) : Option (List ETerm) :=
  match c with
  | Column.uint64 d =>
    collectOption (fun i => (d.get? i).map ETerm.uint) (List.range rowCount)
  | Column.uint32 d =>
    collectOption (fun i => (d.get? i).map ETerm.uint) (List.range rowCount)
  | Column.uint16 d =>
    collectOption (fun i => (d.get? i).map ETerm.uint) (List.range rowCount)
  | Column.uint8 d =>
    collectOption (fun i => (d.get? i).map ETerm.uint) (List.range rowCount)
  | Column.int64 d =>
    collectOption (fun i => (d.get? i).map ETerm.int) (List.range rowCount)
  | Column.int32 d =>
    collectOption (fun i => (d.get? i).map ETerm.int) (List.range rowCount)
  | Column.int16 d =>
    collectOption (fun i => (d.get? i).map ETerm.int) (List.range rowCount)
  | Column.int8 d =>
    collectOption (fun i => (d.get? i).map ETerm.int) (List.range rowCount)
  | Column.str d =>
    collectOption (fun i => (d.get? i).map ETerm.bin) (List.range rowCount)
  | Column.datetime d =>
    collectOption (fun i => (d.get? i).map ETerm.uint) (List.range rowCount)
  | Column.datetime64 d =>
    collectOption (fun i => (d.get? i).map ETerm.int) (List.range rowCount)
  | Column.date d =>
    collectOption (fun i => (d.get? i).map ETerm.uint) (List.range rowCount)
  | Column.uuid d =>
    collectOption (fun i => (d.get? i).map (fun p => ETerm.bin (uuidToString p.1 p.2)))
      (List.range rowCount)
  | Column.decimal d =>
    collectOption (fun i => (d.get? i).map (fun v => ETerm.int (toInt64 v)))
      (List.range rowCount)
  | Column.array rows =>
    collectOption
      (fun i =>
        match rows.get? i with
        | none => none
        | some r => (column_to_elixir_list r).map ETerm.list)
      (List.range rowCount)
  | Column.nullable nested flags =>
    decodeNullableLoop nested flags (List.range rowCount)
  | Column.tuple _ => some []
  | Column.map _ => some []
  | Column.lowCardinality _ _ => some []

/-- `block_to_maps_impl`: zero rows yields the empty list; otherwise every
column's values are extracted, then one record per row index is assembled by
reading `col_data[c][r]` for each column — a raw vector index, out of range
(hence a failure) whenever a column's extracted data has fewer than
`row_count` entries. -/
def block_to_maps_impl (b : Block) : Option (List (List (String × ETerm))) :=
  if b.rowCount = 0 then some []
  else
    match collectOption (fun nc => blockColumnValues nc.2 b.rowCount) b.cols with
    | none => none
    | some colData =>
      collectOption
        (fun r =>
          collectOption
            (fun p =>
              match p.2.get? r with
              | none => none
              | some v => some (p.1.1, v))
            (b.cols.zip colData))
        (List.range b.rowCount)

/-! ## Structured error payload (error_encoding.h / minimal.cpp)

`encode_clickhouse_error` probes the exception's dynamic type in a fixed
order and renders a JSON object; the model captures the fields emitted per
branch: the `type` tag, the message, and the extra `code` / `name` /
`stack_trace` fields of the server and connection branches (the stack trace
is emitted only when non-empty). -/

inductive ChException where
  | serverException (code : Int) (name : String) (displayText : String) (stackTrace : String)
  | validationError (what : String)
  | protocolError (what : String)
  | unimplementedError (what : String)
  | opensslError (what : String)
  | compressionError (what : String)
  | systemError (what : String) (code : Int)
  | otherError (what : String)

structure ErrorPayload where
  kind : String
  message : String
  code : Option Int
  name : Option String
  stackTrace : Option String

def encode_clickhouse_error : ChException → ErrorPayload
  | ChException.serverException code name text st =>
    ErrorPayload.mk "server" text (some code) (some name)
      (if st = "" then none else some st)
  | ChException.validationError m => ErrorPayload.mk "validation" m none none none
  | ChException.protocolError m => ErrorPayload.mk "protocol" m none none none
  | ChException.unimplementedError m => ErrorPayload.mk "unimplemented" m none none none
  | ChException.opensslError m => ErrorPayload.mk "openssl" m none none none
  | ChException.compressionError m => ErrorPayload.mk "compression" m none none none
  | ChException.systemError m code => ErrorPayload.mk "connection" m (some code) none none
  | ChException.otherError m => ErrorPayload.mk "unknown" m none none none

/-! ## Offset-chain helpers for the array append loop -/

/-- The offsets already consumed form a non-decreasing chain starting at the
running lower bound. -/
def chainMono : Nat → List Nat → Prop
  | _, [] => True
  | p, o :: rest => p ≤ o ∧ chainMono o rest

/-- The slice columns the append loop produces for a list of valid offsets,
starting from lower bound `p`. -/
def slicesFrom (nested : Column) : Nat → List Nat → List Column
  | _, [] => []
  | p, o :: rest => nested.slice p (o - p) :: slicesFrom nested o rest

/-- The running lower bound after consuming a list of offsets. -/
def lastBound : Nat → List Nat → Nat
  | p, [] => p
  | _, o :: rest => lastBound o rest

/-! ## Helper lemmas -/

set_option maxRecDepth 8000

theorem foldl_append_singleton {β γ : Type} (g : β → γ) (values : List β)
    (data : List γ) :
    values.foldl (fun acc v => acc ++ [g v]) data = data ++ values.map g := by
  induction values generalizing data with
  | nil => simp
  | cons v vs ih => simp [ih]

theorem arrayAppendLoop_monotonicity (nested : Column) (bad : Nat)
    (rest : List Nat) (good : List Nat) :
    ∀ (p : Nat) (rows : List Column),
      chainMono p good → (∀ o ∈ good, o ≤ nested.size) → bad < lastBound p good →
      arrayAppendLoop nested rows p (good ++ bad :: rest) =
        (rows ++ slicesFrom nested p good, some ChError.MonotonicityError) := by
  induction good with
  | nil =>
    intro p rows _ _ hbad
    have hb : bad < p := hbad
    simp only [List.nil_append, arrayAppendLoop, if_pos hb, slicesFrom,
      List.append_nil]
  | cons o g ih =>
    intro p rows hmono hrange hbad
    obtain ⟨hpo, hg⟩ := hmono
    have ho : o ≤ nested.size := hrange o (by simp)
    simp only [List.cons_append, arrayAppendLoop]
    rw [if_neg (by omega), if_neg (by omega)]
    simp only [List.append_eq]
    rw [ih o (rows ++ [nested.slice p (o - p)]) hg
      (fun x hx => hrange x (List.mem_cons_of_mem o hx)) hbad]
    simp [slicesFrom]

theorem nullableBulkLoop_ok {β : Type} (nulls : List Nat) (values : List β) :
    ∀ (i : Nat) (nested : List β) (nullMap : List Nat),
      i + values.length ≤ nulls.length →
      nullableBulkLoop nulls i nested nullMap values =
        some (nested ++ values,
          nullMap ++ ((nulls.drop i).take values.length).map (fun f => f % 2^8)) := by
  induction values with
  | nil => intro i nested nullMap _; simp [nullableBulkLoop]
  | cons v vs ih =>
    intro i nested nullMap hlen
    have hi : i < nulls.length := by simp only [List.length_cons] at hlen; omega
    rw [nullableBulkLoop, List.get?_eq_getElem?, List.getElem?_eq_getElem hi]
    simp only []
    rw [ih (i + 1) (nested ++ [v]) (nullMap ++ [nulls[i] % 2^8])
      (by simp only [List.length_cons] at hlen; omega)]
    rw [List.drop_eq_getElem_cons hi]
    simp only [List.length_cons, List.take_succ_cons, List.map_cons,
      List.append_assoc, List.singleton_append]

theorem nullableBulkLoop_overrun {β : Type} (nulls : List Nat) (v : β)
    (vs : List β) :
    ∀ (i : Nat) (nested : List β) (nullMap : List Nat),
      nulls.length < i + (v :: vs).length →
      nullableBulkLoop nulls i nested nullMap (v :: vs) = none := by
  induction vs generalizing v with
  | nil =>
    intro i nested nullMap hlen
    have hi : nulls.length ≤ i := by
      simp only [List.length_cons, List.length_nil] at hlen; omega
    rw [nullableBulkLoop, List.get?_eq_getElem?, List.getElem?_eq_none hi]
  | cons w ws ih =>
    intro i nested nullMap hlen
    by_cases hi : i < nulls.length
    · rw [nullableBulkLoop, List.get?_eq_getElem?, List.getElem?_eq_getElem hi]
      simp only []
      exact ih w (i + 1) (nested ++ [v]) (nullMap ++ [nulls[i] % 2^8])
        (by simp only [List.length_cons] at hlen ⊢; omega)
    · rw [nullableBulkLoop, List.get?_eq_getElem?,
        List.getElem?_eq_none (by omega)]

theorem toInt8_spec (v : Int) :
    toInt8 v % 2^8 = v % 2^8 ∧ -(2^7) ≤ toInt8 v ∧ toInt8 v < 2^7 := by
  unfold toInt8; omega

theorem toInt16_spec (v : Int) :
    toInt16 v % 2^16 = v % 2^16 ∧ -(2^15) ≤ toInt16 v ∧ toInt16 v < 2^15 := by
  unfold toInt16; omega

theorem toInt32_spec (v : Int) :
    toInt32 v % 2^32 = v % 2^32 ∧ -(2^31) ≤ toInt32 v ∧ toInt32 v < 2^31 := by
  unfold toInt32; omega

theorem toInt64_bounds (v : Int) : -(2^63) ≤ toInt64 v ∧ toInt64 v < 2^63 := by
  unfold toInt64; omega

theorem toInt64_eq_of_bounds (v : Int) (h1 : -(2^63) ≤ v) (h2 : v < 2^63) :
    toInt64 v = v := by
  unfold toInt64; omega

theorem toInt128_eq_of_bounds (v : Int) (h1 : -(2^127) ≤ v) (h2 : v < 2^127) :
    toInt128 v = v := by
  unfold toInt128; omega


/-! ## Claim theorems -/

/-- Claim C1 (counterexample): with nested column ["a","b"] and the
non-monotonic offsets [2,1], the array append fails with MonotonicityError
but the array column is NOT left unchanged: the row for the offset preceding
the violation has already been appended. -/
theorem C1_counterexample :
    (column_array_append_from_column [] (Column.str ["a", "b"]) [2, 1]).2 =
        some ChError.MonotonicityError ∧
    (column_array_append_from_column [] (Column.str ["a", "b"]) [2, 1]).1 ≠ [] := by
  refine ⟨rfl, ?_⟩
  intro h
  exact List.cons_ne_nil _ _ h

/-- Claim C1 (amended): if the offsets sequence is a valid prefix (chain
non-decreasing from 0, every offset within the nested column's size)
followed by an offset below the running bound, the array append fails with
MonotonicityError, and the array column retains one appended slice row per
offset of the valid prefix (rows appended before the violation persist). -/
theorem C1_amended (arrayRows : List Column) (nested : Column)
    (good : List Nat) (bad : Nat) (rest : List Nat)
    (hmono : chainMono 0 good) (hrange : ∀ o ∈ good, o ≤ nested.size)
    (hviol : bad < lastBound 0 good) :
    column_array_append_from_column arrayRows nested (good ++ bad :: rest) =
      (arrayRows ++ slicesFrom nested 0 good, some ChError.MonotonicityError) :=
  arrayAppendLoop_monotonicity nested bad rest good 0 arrayRows hmono hrange hviol

/-- Claim C1 (witness): the amended theorem at nested = ["a","b"],
offsets = [2,1]. -/
theorem C1_witness :
    column_array_append_from_column [] (Column.str ["a", "b"]) [2, 1] =
      ([Column.str ["a", "b"]], some ChError.MonotonicityError) :=
  C1_amended [] (Column.str ["a", "b"]) [2] 1 []
    ⟨Nat.zero_le 2, trivial⟩
    (by intro o ho; simp only [List.mem_singleton] at ho; subst ho; decide)
    (by decide)

/-- Claim C2 (counterexample): the Nullable bulk append performs no length
check: with values = [] and nulls = [7] (different lengths) it succeeds
appending nothing, and with values = [5] and nulls = [] it fails by an
out-of-range vector read, not with LengthMismatchError. -/
theorem C2_counterexample :
    column_nullable_uint64_append_bulk [] [] [] [7] = some ([], []) ∧
    column_nullable_uint64_append_bulk [] [] [5] [] = none := ⟨rfl, rfl⟩

/-- Claim C2 (amended): the Nullable bulk appends (uint64 and string) check
no lengths: they iterate the values sequence, appending each value to the
nested column and the index-aligned flag, truncated to 8 bits, to the null
map; surplus validity flags are ignored and the call succeeds, while a
validity sequence shorter than the values sequence causes an out-of-range
read. -/
theorem C2_amended :
    (∀ (nested nullMap values nulls : List Nat),
      values.length ≤ nulls.length →
      column_nullable_uint64_append_bulk nested nullMap values nulls =
        some (nested ++ values,
          nullMap ++ (nulls.take values.length).map (fun f => f % 2^8))) ∧
    (∀ (nested : List String) (nullMap : List Nat) (values : List String)
        (nulls : List Nat),
      values.length ≤ nulls.length →
      column_nullable_string_append_bulk nested nullMap values nulls =
        some (nested ++ values,
          nullMap ++ (nulls.take values.length).map (fun f => f % 2^8))) ∧
    (∀ (nested nullMap values nulls : List Nat),
      nulls.length < values.length →
      column_nullable_uint64_append_bulk nested nullMap values nulls = none) := by
  refine ⟨?_, ?_, ?_⟩
  · intro nested nullMap values nulls h
    have := nullableBulkLoop_ok nulls values 0 nested nullMap (by omega)
    simpa [column_nullable_uint64_append_bulk] using this
  · intro nested nullMap values nulls h
    have := nullableBulkLoop_ok nulls values 0 nested nullMap (by omega)
    simpa [column_nullable_string_append_bulk] using this
  · intro nested nullMap values nulls h
    cases values with
    | nil => simp at h
    | cons v vs =>
      exact nullableBulkLoop_overrun nulls v vs 0 nested nullMap
        (by simpa using h)

/-- Claim C2 (witness): the amended theorem at values [10,20] with an
equal-length flag sequence, and with a too-short flag sequence. -/
theorem C2_witness :
    column_nullable_uint64_append_bulk [] [] [10, 20] [0, 0] =
      some ([10, 20], [0, 0]) ∧
    column_nullable_uint64_append_bulk [] [] [10, 20] [0] = none :=
  ⟨by have := C2_amended.1 [] [] [10, 20] [0, 0] (by decide); simpa using this,
   C2_amended.2.2 [] [] [10, 20] [0] (by decide)⟩

/-- Claim C3 (counterexample): the payload kind emitted for a TLS-layer
(OpenSSL) failure is "openssl", which is not in the claimed kind set (the
claimed set has "tls" instead). -/
theorem C3_counterexample :
    (encode_clickhouse_error (ChException.opensslError "handshake failed")).kind =
        "openssl" ∧
    "openssl" ∉ ["server", "validation", "protocol", "unimplemented", "tls",
      "compression", "connection", "unknown"] :=
  ⟨rfl, by decide⟩

/-- Claim C3 (amended): every failure payload carries a kind tag drawn from
exactly {server, validation, protocol, unimplemented, openssl, compression,
connection, unknown} together with a message; the server kind additionally
carries a numeric code, a name and an optional stack trace, and the
connection kind a numeric system error code. -/
theorem C3_amended :
    (∀ e, (encode_clickhouse_error e).kind ∈ ["server", "validation",
      "protocol", "unimplemented", "openssl", "compression", "connection",
      "unknown"]) ∧
    (∀ (code : Int) (name text st : String),
      (encode_clickhouse_error
        (ChException.serverException code name text st)).kind = "server" ∧
      (encode_clickhouse_error
        (ChException.serverException code name text st)).code = some code ∧
      (encode_clickhouse_error
        (ChException.serverException code name text st)).name = some name ∧
      (encode_clickhouse_error
        (ChException.serverException code name text st)).message = text) ∧
    (∀ (m : String) (code : Int),
      (encode_clickhouse_error (ChException.systemError m code)).kind =
        "connection" ∧
      (encode_clickhouse_error (ChException.systemError m code)).code =
        some code) := by
  refine ⟨?_, ?_, ?_⟩
  · intro e; cases e <;> simp [encode_clickhouse_error]
  · intro code name text st; exact ⟨rfl, rfl, rfl, rfl⟩
  · intro m code; exact ⟨rfl, rfl⟩

/-- Claim C4 (counterexample): a block whose only column is an unsupported
kind (Tuple) with a positive row count makes the block-to-rows projection
read the empty extracted column data out of range — it fails instead of
producing rows with an empty value for that column. -/
theorem C4_counterexample :
    block_to_maps_impl (Block.mk [("t", Column.tuple [Column.uint64 [1, 2]])]) =
      none := rfl

/-- Claim C4 (amended): standalone decode of an unsupported top-level column
kind (Tuple, Map, LowCardinality) produces an empty sequence rather than
failing, and the per-column extraction inside block-to-rows likewise
produces an empty data sequence; but when the block's row count is positive
the row-assembly step indexes that empty sequence out of bounds, so the
projection fails rather than producing rows. -/
theorem C4_amended :
    (∀ children, column_to_elixir_list (Column.tuple children) = some []) ∧
    (∀ kv, column_to_elixir_list (Column.map kv) = some []) ∧
    (∀ dict indices,
      column_to_elixir_list (Column.lowCardinality dict indices) = some []) ∧
    (∀ children rowCount,
      blockColumnValues (Column.tuple children) rowCount = some []) ∧
    (∀ (name : String) (children : List Column),
      0 < (Column.tuple children).size →
      block_to_maps_impl (Block.mk [(name, Column.tuple children)]) = none) := by
  refine ⟨fun _ => rfl, fun _ => rfl, fun _ _ => rfl, fun _ _ => rfl, ?_⟩
  intro name children h
  cases hk : (Column.tuple children).size with
  | zero => omega
  | succ k =>
    simp only [block_to_maps_impl, Block.rowCount]
    rw [hk, if_neg (Nat.succ_ne_zero k)]
    simp [collectOption, blockColumnValues, List.range_succ_eq_map]

/-- Claim C4 (witness): the amended theorem's block clause at a one-column
block holding a 1-row Tuple column. -/
theorem C4_witness :
    block_to_maps_impl (Block.mk [("u", Column.tuple [Column.str ["x"]])]) =
      none :=
  C4_amended.2.2.2.2 "u" [Column.str ["x"]] (by decide)

/-- Claim C5: appending nested string rows ["a","b","c","d","e"] with
offsets [2,2,5] to an empty array column succeeds, and decoding the
resulting array column yields the rows [["a","b"], [], ["c","d","e"]]. -/
theorem C5_array_composition :
    column_array_append_from_column []
        (Column.str ["a", "b", "c", "d", "e"]) [2, 2, 5] =
      ([Column.str ["a", "b"], Column.str [], Column.str ["c", "d", "e"]],
        none) ∧
    column_to_elixir_list (Column.array [Column.str ["a", "b"], Column.str [],
        Column.str ["c", "d", "e"]]) =
      some [ETerm.list [ETerm.bin "a", ETerm.bin "b"], ETerm.list [],
        ETerm.list [ETerm.bin "c", ETerm.bin "d", ETerm.bin "e"]] := ⟨rfl, rfl⟩

/-- Claim C6: for every column kind exposing both a single-value append and
a bulk append (UInt64, Int64, String, Float64, DateTime), the bulk append
equals the left fold of the single-value append over the values — the two
paths are observably identical, applying the identical per-element coercion
(none for the first four, the time_t/32-bit narrowing for DateTime). -/
theorem C6_bulk_single_equiv :
    (∀ (data values : List Nat),
      column_uint64_append_bulk data values =
        values.foldl column_uint64_append data ∧
      column_uint64_append_bulk data values = data ++ values) ∧
    (∀ (data values : List Int),
      column_int64_append_bulk data values =
        values.foldl column_int64_append data ∧
      column_int64_append_bulk data values = data ++ values) ∧
    (∀ (data values : List String),
      column_string_append_bulk data values =
        values.foldl column_string_append data ∧
      column_string_append_bulk data values = data ++ values) ∧
    (∀ (α : Type) (data values : List α),
      column_float64_append_bulk data values =
        values.foldl column_float64_append data ∧
      column_float64_append_bulk data values = data ++ values) ∧
    (∀ (data values : List Nat),
      column_datetime_append_bulk data values =
        values.foldl column_datetime_append data ∧
      column_datetime_append_bulk data values =
        data ++ values.map (fun t => t % 2^32)) := by
  refine ⟨?_, ?_, ?_, ?_, ?_⟩
  · intro data values
    exact ⟨rfl, by simpa using foldl_append_singleton (fun v : Nat => v) values data⟩
  · intro data values
    exact ⟨rfl, by simpa using foldl_append_singleton (fun v : Int => v) values data⟩
  · intro data values
    exact ⟨rfl, by simpa using foldl_append_singleton (fun v : String => v) values data⟩
  · intro α data values
    exact ⟨rfl, by simpa using foldl_append_singleton (fun v : α => v) values data⟩
  · intro data values
    exact ⟨rfl, foldl_append_singleton (fun t => t % 2^32) values data⟩

/-- Claim C7: Decimal append widens each int64 mantissa to 128-bit signed
storage; decode truncates the stored mantissa back to 64 bits.  Every
mantissa in the int64 range round-trips exactly through append then decode,
while a stored value outside the int64 range is changed by the truncation
(its high bits are lost). -/
theorem C7_decimal_roundtrip :
    (∀ (data scaled : List Int),
      column_decimal_append_bulk data scaled = data ++ scaled.map toInt128) ∧
    (∀ v : Int, -(2^63) ≤ v → v < 2^63 →
      column_to_elixir_list (Column.decimal (column_decimal_append_bulk [] [v])) =
        some [ETerm.int v]) ∧
    (∀ s : Int, s < -(2^63) ∨ 2^63 ≤ s → toInt64 s ≠ s) := by
  refine ⟨?_, ?_, ?_⟩
  · intro data scaled; exact foldl_append_singleton toInt128 scaled data
  · intro v h1 h2
    have h128 : toInt128 v = v := toInt128_eq_of_bounds v (by omega) (by omega)
    have h64 : toInt64 v = v := toInt64_eq_of_bounds v h1 h2
    simp [column_decimal_append_bulk, column_to_elixir_list, h128, h64]
  · intro s hs
    have hb := toInt64_bounds s
    omega

/-- Claim C7 (witness): mantissa 5 round-trips; the stored value 2^63 (just
outside the int64 range) is changed by decode truncation. -/
theorem C7_witness :
    column_to_elixir_list (Column.decimal (column_decimal_append_bulk [] [5])) =
      some [ETerm.int 5] ∧
    toInt64 (2^63) ≠ 2^63 :=
  ⟨C7_decimal_roundtrip.2.1 5 (by norm_num) (by norm_num),
   C7_decimal_roundtrip.2.2 (2^63) (Or.inr (by norm_num))⟩

/-- Claim C8: every UUID row decodes to the 8-4-4-4-12 hyphenated lowercase
hex string obtained by shifting and masking its high and low halves; in
particular (high = 0x0123456789abcdef, low = 0xfedcba9876543210) appends and
then decodes to "01234567-89ab-cdef-fedc-ba9876543210". -/
theorem C8_uuid_encoding :
    (∀ rows : List (Nat × Nat),
      column_to_elixir_list (Column.uuid rows) =
        some (rows.map (fun p => ETerm.bin (uuidToString p.1 p.2)))) ∧
    column_uuid_append_bulk [] [0x0123456789abcdef] [0xfedcba9876543210] =
      Except.ok [(0x0123456789abcdef, 0xfedcba9876543210)] ∧
    column_to_elixir_list
        (Column.uuid [(0x0123456789abcdef, 0xfedcba9876543210)]) =
      some [ETerm.bin "01234567-89ab-cdef-fedc-ba9876543210"] :=
  ⟨fun _ => rfl, rfl, rfl⟩

/-- Claim C9: the narrow integer-width bulk appends narrow each wide inbound
value by truncating conversion: Date and the unsigned widths store the value
modulo 2^w, the signed widths store the unique representative of the value's
residue class mod 2^w in [-2^(w-1), 2^(w-1)) — truncation (wrap-around), not
saturation. -/
theorem C9_narrowing :
    (∀ (data days : List Nat),
      column_date_append_bulk data days = data ++ days.map (fun d => d % 2^16)) ∧
    (∀ (data values : List Nat),
      column_uint8_append_bulk data values =
        data ++ values.map (fun v => v % 2^8)) ∧
    (∀ (data values : List Nat),
      column_uint16_append_bulk data values =
        data ++ values.map (fun v => v % 2^16)) ∧
    (∀ (data values : List Nat),
      column_uint32_append_bulk data values =
        data ++ values.map (fun v => v % 2^32)) ∧
    (∀ (data values : List Int),
      column_int8_append_bulk data values = data ++ values.map toInt8) ∧
    (∀ (data values : List Int),
      column_int16_append_bulk data values = data ++ values.map toInt16) ∧
    (∀ (data values : List Int),
      column_int32_append_bulk data values = data ++ values.map toInt32) ∧
    (∀ v : Int, toInt8 v % 2^8 = v % 2^8 ∧ -(2^7) ≤ toInt8 v ∧ toInt8 v < 2^7) ∧
    (∀ v : Int,
      toInt16 v % 2^16 = v % 2^16 ∧ -(2^15) ≤ toInt16 v ∧ toInt16 v < 2^15) ∧
    (∀ v : Int,
      toInt32 v % 2^32 = v % 2^32 ∧ -(2^31) ≤ toInt32 v ∧ toInt32 v < 2^31) :=
  ⟨fun data days => foldl_append_singleton (fun d => d % 2^16) days data,
   fun data values => foldl_append_singleton (fun v => v % 2^8) values data,
   fun data values => foldl_append_singleton (fun v => v % 2^16) values data,
   fun data values => foldl_append_singleton (fun v => v % 2^32) values data,
   fun data values => foldl_append_singleton toInt8 values data,
   fun data values => foldl_append_singleton toInt16 values data,
   fun data values => foldl_append_singleton toInt32 values data,
   toInt8_spec, toInt16_spec, toInt32_spec⟩

/-- Claim C10: the Nullable bulk append truncates each 64-bit validity flag
to 8 bits before storing it in the null map, and decode marks a row null
exactly when the stored flag is nonzero; hence a flag that is a nonzero
multiple of 256 yields a non-null row, while any flag with nonzero low
8 bits yields nil. -/
theorem C10_nullable_flag_truncation (v flag : Nat) :
    column_nullable_uint64_append_bulk [] [] [v] [flag] =
      some ([v], [flag % 2^8]) ∧
    (flag % 2^8 = 0 →
      column_to_elixir_list (Column.nullable (Column.uint64 [v]) [flag % 2^8]) =
        some [ETerm.uint v]) ∧
    (flag % 2^8 ≠ 0 →
      column_to_elixir_list (Column.nullable (Column.uint64 [v]) [flag % 2^8]) =
        some [ETerm.atomNil]) := by
  refine ⟨?_, ?_, ?_⟩
  · simp [column_nullable_uint64_append_bulk, nullableBulkLoop]
  · intro h
    simp [column_to_elixir_list, Column.size, decodeNullableLoop,
      List.range_succ, h]
    omega
  · intro h
    simp [column_to_elixir_list, Column.size, decodeNullableLoop,
      List.range_succ, h]
    omega

/-- Claim C10 (witness): flag 256 (a nonzero multiple of 256) stores 0 and
decodes non-null; flag 3 stores 3 and decodes to nil. -/
theorem C10_witness :
    column_to_elixir_list (Column.nullable (Column.uint64 [7]) [256 % 2^8]) =
      some [ETerm.uint 7] ∧
    column_to_elixir_list (Column.nullable (Column.uint64 [7]) [3 % 2^8]) =
      some [ETerm.atomNil] :=
  ⟨(C10_nullable_flag_truncation 7 256).2.1 (by decide),
   (C10_nullable_flag_truncation 7 3).2.2 (by decide)⟩

end Chex
